import Mathlib

/-!
Verification development for the combat-state engine of `dungeon-master-mcp`
(Go package `tools`, file with `CombatState`, `Entity` and the eight handlers
`handleStartCombat`, `handleNextTurn`, `handleApplyDamage`, `handleApplyHealing`,
`handleAddCondition`, `handleSavingThrow`, `handleLegendaryAction`,
`handleTrackResource`).

Modelling conventions, each noted again at the definition it concerns:
* Go `int` is modelled as `Int`; Go integer division (`/`, truncation toward
  zero) is `Int.div`.
* Go `map[string]T` is modelled as an association list `List (String × T)`
  with lookup of the first matching key and insert-or-replace; the keys of a
  map built this way are unique, matching Go map semantics.
* Go map iteration order is unspecified (the runtime randomizes it), so
  every place the source ranges over a map in an order-sensitive way takes
  the iteration order as an explicit parameter (a permutation of the keys).
* `sort.Slice` (an unstable comparison sort) is modelled as a comparison
  sort (`List.insertionSort`) over the comparator from the source; together
  with the explicit iteration-order parameter this covers the source's
  nondeterminism on comparator-equal elements.
* `rand.Intn(20) + 1` in the saving-throw handler is an explicit `roll`
  parameter.
* A handler returning a non-nil Go `error` is modelled by the `fail`
  outcome; a Go runtime panic (index out of range / nil dereference) by the
  `panic'` outcome.  Both carry the combat state as mutated up to that
  point, since the Go state is a process global.
* `fmt.Sprintf` message strings are pure formatting of fields that are all
  modelled separately; the message fields themselves are not modelled.
-/

namespace DMMcp

/-- Go `map[string]α` lookup `m[k]` (comma-ok form): first binding of `k`. -/
def lookupA {α : Type} : List (String × α) → String → Option α
  | [], _ => none
  | (k, v) :: rest, key => if k = key then some v else lookupA rest key

/-- Go `map[string]α` assignment `m[k] = v`: replace the binding if the key is
present, otherwise append it. -/
def insertA {α : Type} : List (String × α) → String → α → List (String × α)
  | [], key, v => [(key, v)]
  | (k, w) :: rest, key, v =>
      if k = key then (k, v) :: rest else (k, w) :: insertA rest key v

/-- Entity represents a combatant (PC or monster); Go struct `Entity`. -/
structure Entity where
  id : String
  name : String
  initiativeRoll : Int
  maxHP : Int
  currentHP : Int
  ac : Int
  conditions : List (String × Int)
  resources : List (String × Int)
  isMonster : Bool
  monsterName : String
  legendaryActions : Int
  maxLegendaryActions : Int
  legendaryResistances : Int
  deriving Repr, DecidableEq

/-- CombatState tracks the current combat session; Go struct `CombatState`. -/
structure CombatState where
  entities : List (String × Entity)
  turnOrder : List String
  currentTurn : Nat
  roundNumber : Nat
  deriving Repr, DecidableEq

/-- State installed by `RegisterCombatTools` before any tool call: empty
entities and turn order, and the Go zero values `CurrentTurn = 0`,
`RoundNumber = 0`. -/
def initialState : CombatState :=
  { entities := [], turnOrder := [], currentTurn := 0, roundNumber := 0 }

/-- Result of one handler call.  `ok` is a nil-error return, `fail` a non-nil
`error` return, `panic'` a Go runtime panic.  Each carries the combat state
as the handler left it (the Go state is a global). -/
inductive Outcome (α : Type) where
  | ok (s : CombatState) (out : α)
  | fail (s : CombatState) (msg : String)
  | panic' (s : CombatState)
  deriving Repr, DecidableEq

/-- Go struct `EntityInit` (input element of `start_combat`). -/
structure EntityInit where
  id : String
  name : String
  initiative : Int
  hp : Int
  ac : Int
  isMonster : Bool
  monsterName : String
  deriving Repr, DecidableEq

/-- Go `loadMonsterStats`: hard-coded defaults, only "Ancient Red Dragon" is
recognized. -/
def loadMonsterStats (entity : Entity) : Entity :=
  if entity.monsterName = "Ancient Red Dragon" then
    { entity with
        maxLegendaryActions := 3
        legendaryActions := 3
        legendaryResistances := 3 }
  else entity

/-- The entity built from one `EntityInit` by `handleStartCombat`, including
the `loadMonsterStats` call for monsters with a non-empty template name. -/
def mkEntity (e : EntityInit) : Entity :=
  let entity : Entity :=
    { id := e.id
      name := e.name
      initiativeRoll := e.initiative
      maxHP := e.hp
      currentHP := e.hp
      ac := e.ac
      conditions := []
      resources := []
      isMonster := e.isMonster
      monsterName := e.monsterName
      legendaryActions := 0
      maxLegendaryActions := 0
      legendaryResistances := 0 }
  if e.isMonster ∧ e.monsterName ≠ "" then loadMonsterStats entity else entity

/-- The `combatState.Entities` map after the creation loop of
`handleStartCombat` (Go map assignment in input order: last write wins on a
duplicate id). -/
def buildEntities (input : List EntityInit) : List (String × Entity) :=
  input.foldl (fun m e => insertA m e.id (mkEntity e)) []

/-- The `pairs` slice of `handleStartCombat`: one `(id, initiative)` pair per
entry of the entities map, in the map iteration order `iterOrder` (Go map
iteration order is unspecified, so it is an explicit parameter; it is a
permutation of the map's keys). -/
def initPairs (ents : List (String × Entity)) (iterOrder : List String) :
    List (String × Int) :=
  iterOrder.filterMap fun id => (lookupA ents id).map fun e => (id, e.initiativeRoll)

/-- Comparator of the `sort.Slice` call in `handleStartCombat`:
`pairs[i].init > pairs[j].init`, i.e. sort descending by initiative.  The
sort is over the non-strict order whose strict part is that comparator. -/
def initGe (a b : String × Int) : Prop := b.2 ≤ a.2

instance : DecidableRel initGe := fun a b => inferInstanceAs (Decidable (b.2 ≤ a.2))

instance : IsTotal (String × Int) initGe := ⟨fun a b => le_total b.2 a.2⟩

instance : IsTrans (String × Int) initGe := ⟨fun _ _ _ hab hbc => le_trans hbc hab⟩

/-- Go `handleStartCombat`: resets the combat state (the previous state is
discarded unconditionally, so it is not a parameter), builds the entities
map, sorts `(id, initiative)` pairs descending by initiative and stores the
resulting id sequence as the turn order.  `iterOrder` is the unspecified Go
map iteration order used to collect the pairs.  The handler never fails; its
output is the turn order (the status message is not modelled). -/
def handleStartCombat (input : List EntityInit) (iterOrder : List String) :
    CombatState × List String :=
  let ents := buildEntities input
  let sorted := (initPairs ents iterOrder).insertionSort initGe
  let order := sorted.map Prod.fst
  ({ entities := ents
     turnOrder := order
     currentTurn := 0
     roundNumber := 1 }, order)

/-- Condition-decrement loop of `handleNextTurn`: each condition with a
positive remaining-turn counter is decremented, and removed when it reaches
exactly 0; non-positive counters (the permanent sentinel −1, and 0) are left
untouched.  The Go loop mutates/deletes only the key at hand, so its net
effect is this per-entry map. -/
def stepConditions (cs : List (String × Int)) : List (String × Int) :=
  cs.filterMap fun p =>
    if p.2 > 0 then (if p.2 - 1 = 0 then none else some (p.1, p.2 - 1))
    else some p

/-- Start-of-turn effects of `handleNextTurn` on the entity whose turn
begins: legendary-action refresh for monsters with a configured maximum,
then condition decrement. -/
def startOfTurn (e : Entity) : Entity :=
  let e :=
    if e.isMonster ∧ e.maxLegendaryActions > 0 then
      { e with legendaryActions := e.maxLegendaryActions }
    else e
  { e with conditions := stepConditions e.conditions }

/-- Output of `handleNextTurn` (effect strings and the formatted combat
status map are not modelled; the condition-name list each status string
embeds is exposed separately as `condNames`). -/
structure NextTurnOutput where
  currentEntityID : String
  currentEntityName : String
  roundNumber : Nat
  deriving Repr, DecidableEq

/-- The `condList` built by `handleNextTurn`'s status loop for one entity:
the keys of its conditions map. -/
def condNames (e : Entity) : List String := e.conditions.map Prod.fst

/-- Go `handleNextTurn`: increments the turn index, wrapping to 0 and
incrementing the round number when it reaches the end of the turn order,
then reads `TurnOrder[CurrentTurn]` — on an empty turn order this index
access panics (after the counters were already mutated).  The entity lookup
that follows would dereference nil if the id were absent.  Start-of-turn
effects are applied to the current entity. -/
def handleNextTurn (s : CombatState) : Outcome NextTurnOutput :=
  let ct := s.currentTurn + 1
  let wrapped := ct ≥ s.turnOrder.length
  let ct := if wrapped then 0 else ct
  let rn := if wrapped then s.roundNumber + 1 else s.roundNumber
  let s := { s with currentTurn := ct, roundNumber := rn }
  match s.turnOrder[ct]? with
  | none => .panic' s
  | some currentID =>
    match lookupA s.entities currentID with
    | none => .panic' s
    | some current =>
      let current' := startOfTurn current
      let s := { s with entities := insertA s.entities currentID current' }
      .ok s
        { currentEntityID := currentID
          currentEntityName := current'.name
          roundNumber := rn }

/-- Go struct `ApplyDamageInput` (`damage_type` is used only in the message,
which is not modelled). -/
structure ApplyDamageInput where
  targetID : String
  damage : Int
  deriving Repr, DecidableEq

/-- Go struct `ApplyDamageOutput` (without the message field). -/
structure ApplyDamageOutput where
  finalDamage : Int
  remainingHP : Int
  isUnconscious : Bool
  deriving Repr, DecidableEq

/-- Go `handleApplyDamage`: not-found is a hard error; if the resources map
has a key "resistances" (existence only) the damage is halved with Go
integer division (`Int.tdiv`, truncation toward zero); HP is clamped below at
0; unconscious iff the new HP is exactly 0. -/
def handleApplyDamage (s : CombatState) (input : ApplyDamageInput) :
    Outcome ApplyDamageOutput :=
  match lookupA s.entities input.targetID with
  | none => .fail s ("target not found: " ++ input.targetID)
  | some target =>
    let finalDamage :=
      if (lookupA target.resources "resistances").isSome
      then Int.tdiv input.damage 2
      else input.damage
    let hp := target.currentHP - finalDamage
    let hp := if hp < 0 then 0 else hp
    let target' := { target with currentHP := hp }
    let s := { s with entities := insertA s.entities input.targetID target' }
    .ok s
      { finalDamage := finalDamage
        remainingHP := hp
        isUnconscious := decide (hp = 0) }

/-- Go struct `ApplyHealingInput`. -/
structure ApplyHealingInput where
  targetID : String
  amount : Int
  deriving Repr, DecidableEq

/-- Go struct `ApplyHealingOutput` (without the message field). -/
structure ApplyHealingOutput where
  amountHealed : Int
  currentHP : Int
  deriving Repr, DecidableEq

/-- Go `handleApplyHealing`: adds the amount to current HP, clamped above at
max HP; the reported healed amount is post-clamp HP minus the prior HP. -/
def handleApplyHealing (s : CombatState) (input : ApplyHealingInput) :
    Outcome ApplyHealingOutput :=
  match lookupA s.entities input.targetID with
  | none => .fail s ("target not found: " ++ input.targetID)
  | some target =>
    let hp := target.currentHP + input.amount
    let hp := if hp > target.maxHP then target.maxHP else hp
    let healed := hp - target.currentHP
    let target' := { target with currentHP := hp }
    let s := { s with entities := insertA s.entities input.targetID target' }
    .ok s { amountHealed := healed, currentHP := hp }

/-- Go struct `AddConditionInput`. -/
structure AddConditionInput where
  targetID : String
  condition : String
  duration : Int
  deriving Repr, DecidableEq

/-- Go `handleAddCondition`: sets (overwrites) the condition with the given
duration.  The output is only a message, not modelled. -/
def handleAddCondition (s : CombatState) (input : AddConditionInput) :
    Outcome Unit :=
  match lookupA s.entities input.targetID with
  | none => .fail s ("target not found: " ++ input.targetID)
  | some target =>
    let target' :=
      { target with conditions := insertA target.conditions input.condition input.duration }
    let s := { s with entities := insertA s.entities input.targetID target' }
    .ok s ()

/-- Go struct `SavingThrowInput` (`save_type` is used only in the message). -/
structure SavingThrowInput where
  entityID : String
  dc : Int
  deriving Repr, DecidableEq

/-- Go struct `SavingThrowOutput` (without the message field). -/
structure SavingThrowOutput where
  roll : Int
  bonus : Int
  total : Int
  success : Bool
  usedLegendaryResistance : Bool
  remainingLegendaryResists : Int
  deriving Repr, DecidableEq

/-- Go `handleSavingThrow`: `roll` stands for the draw `rand.Intn(20) + 1`
(so the real handler only produces `1 ≤ roll ≤ 20`).  Bonus is the
placeholder 3 for monsters, 0 otherwise; success iff roll + bonus ≥ DC; a
failed save is overridden to success, consuming one legendary resistance,
exactly when the entity has more than 0 remaining. -/
def handleSavingThrow (s : CombatState) (input : SavingThrowInput) (roll : Int) :
    Outcome SavingThrowOutput :=
  match lookupA s.entities input.entityID with
  | none => .fail s ("entity not found: " ++ input.entityID)
  | some entity =>
    let bonus : Int := if entity.isMonster then 3 else 0
    let total := roll + bonus
    let success := decide (total ≥ input.dc)
    let usedLegendary := !success && decide (entity.legendaryResistances > 0)
    let success := success || usedLegendary
    let entity' :=
      if usedLegendary then
        { entity with legendaryResistances := entity.legendaryResistances - 1 }
      else entity
    let s := { s with entities := insertA s.entities input.entityID entity' }
    .ok s
      { roll := roll
        bonus := bonus
        total := total
        success := success
        usedLegendaryResistance := usedLegendary
        remainingLegendaryResists := entity'.legendaryResistances }

/-- Go struct `LegendaryActionInput` (`action_name` is used only in the
message). -/
structure LegendaryActionInput where
  monsterID : String
  cost : Int
  deriving Repr, DecidableEq

/-- Go struct `LegendaryActionOutput` (without the message field). -/
structure LegendaryActionOutput where
  success : Bool
  remainingActions : Int
  deriving Repr, DecidableEq

/-- Go `handleLegendaryAction`: not-found is a hard error; insufficient
remaining actions is a soft `success=false` result with no state change;
otherwise the cost is deducted. -/
def handleLegendaryAction (s : CombatState) (input : LegendaryActionInput) :
    Outcome LegendaryActionOutput :=
  match lookupA s.entities input.monsterID with
  | none => .fail s ("monster not found: " ++ input.monsterID)
  | some monster =>
    if monster.legendaryActions < input.cost then
      .ok s { success := false, remainingActions := monster.legendaryActions }
    else
      let monster' :=
        { monster with legendaryActions := monster.legendaryActions - input.cost }
      let s := { s with entities := insertA s.entities input.monsterID monster' }
      .ok s { success := true, remainingActions := monster'.legendaryActions }

/-- Go struct `TrackResourceInput`. -/
structure TrackResourceInput where
  entityID : String
  resourceName : String
  currentValue : Int
  deriving Repr, DecidableEq

/-- Go `handleTrackResource`: overwrites (or creates) the named resource
counter with the given absolute value.  The output is only a message. -/
def handleTrackResource (s : CombatState) (input : TrackResourceInput) :
    Outcome Unit :=
  match lookupA s.entities input.entityID with
  | none => .fail s ("entity not found: " ++ input.entityID)
  | some entity =>
    let entity' :=
      { entity with resources := insertA entity.resources input.resourceName input.currentValue }
    let s := { s with entities := insertA s.entities input.entityID entity' }
    .ok s ()

/-! ### Derived notions used by the statements -/

/-- Combat state a handler call leaves behind (the Go state is a process
global, so it is defined in every outcome, including error and panic). -/
def Outcome.state {α : Type} : Outcome α → CombatState
  | .ok s _ => s
  | .fail s _ => s
  | .panic' s => s

/-- Output of a successful handler call. -/
def Outcome.output {α : Type} : Outcome α → Option α
  | .ok _ out => some out
  | _ => none

/-- HP well-formedness of the whole roster: `0 ≤ CurrentHP ≤ MaxHP` for
every entity. -/
def WF (s : CombatState) : Prop :=
  ∀ p ∈ s.entities, 0 ≤ p.2.currentHP ∧ p.2.currentHP ≤ p.2.maxHP

instance (s : CombatState) : Decidable (WF s) := by unfold WF; infer_instance

/-- Every id in the turn order resolves to an entity (so `handleNextTurn`
cannot hit its nil dereference). -/
def IdsPresent (s : CombatState) : Prop :=
  ∀ id ∈ s.turnOrder, (lookupA s.entities id).isSome

instance (s : CombatState) : Decidable (IdsPresent s) := by
  unfold IdsPresent; infer_instance

/-- Initiative of the entity with the given id (0 if absent; every id a
theorem applies it to is present). -/
def initOf (s : CombatState) (id : String) : Int :=
  match lookupA s.entities id with
  | some e => e.initiativeRoll
  | none => 0

/-- The new combat state of one successful `next_turn` call. -/
def nextTurnState (s : CombatState) : Option CombatState :=
  match handleNextTurn s with
  | .ok s' _ => some s'
  | _ => none

/-- State after `n` consecutive successful `next_turn` calls. -/
def iterateNextTurn : Nat → CombatState → Option CombatState
  | 0, s => some s
  | n + 1, s => (nextTurnState s).bind (iterateNextTurn n)

/-! ### Association-list lemmas -/

theorem lookupA_insertA_self {α : Type} (m : List (String × α)) (k : String) (v : α) :
    lookupA (insertA m k v) k = some v := by
  induction m with
  | nil => simp [insertA, lookupA]
  | cons p rest ih =>
    by_cases h : p.1 = k
    · simp [insertA, lookupA, h]
    · simp [insertA, lookupA, h, ih]

theorem lookupA_insertA_ne {α : Type} (m : List (String × α)) (k key : String) (v : α)
    (h : k ≠ key) : lookupA (insertA m k v) key = lookupA m key := by
  induction m with
  | nil => simp [insertA, lookupA, h]
  | cons p rest ih =>
    obtain ⟨a, b⟩ := p
    by_cases ha : a = k
    · subst ha
      simp only [insertA, if_pos rfl, lookupA, if_neg h]
    · simp only [insertA, if_neg ha, lookupA, ih]

theorem mem_of_lookupA {α : Type} {m : List (String × α)} {k : String} {v : α}
    (h : lookupA m k = some v) : (k, v) ∈ m := by
  induction m with
  | nil => simp [lookupA] at h
  | cons p rest ih =>
    obtain ⟨a, b⟩ := p
    by_cases ha : a = k
    · subst ha
      simp only [lookupA, if_pos rfl, reduceIte, Option.some.injEq] at h
      subst h
      exact List.mem_cons_self _ _
    · simp only [lookupA, if_neg ha] at h
      exact List.mem_cons_of_mem _ (ih h)

theorem isSome_lookupA_insertA {α : Type} (m : List (String × α)) (k key : String) (v : α)
    (h : (lookupA m key).isSome) : (lookupA (insertA m k v) key).isSome := by
  by_cases hk : k = key
  · subst hk; rw [lookupA_insertA_self]; rfl
  · rw [lookupA_insertA_ne m k key v hk]; exact h

theorem forall_mem_insertA {α : Type} {P : String × α → Prop} {k : String} {v : α}
    (hv : P (k, v)) :
    ∀ {m : List (String × α)}, (∀ p ∈ m, P p) → ∀ p ∈ insertA m k v, P p := by
  intro m
  induction m with
  | nil =>
    intro _
    simpa [insertA] using hv
  | cons q rest ih =>
    intro hm p hp
    obtain ⟨a, b⟩ := q
    by_cases ha : a = k
    · subst ha
      simp only [insertA, if_pos rfl, reduceIte, List.mem_cons] at hp
      rcases hp with hp | hp
      · subst hp; exact hv
      · exact hm p (List.mem_cons_of_mem _ hp)
    · simp only [insertA, if_neg ha, List.mem_cons] at hp
      rcases hp with hp | hp
      · subst hp; exact hm _ (List.mem_cons_self _ _)
      · exact ih (fun r hr => hm r (List.mem_cons_of_mem _ hr)) p hp

theorem lookupA_isSome_iff {α : Type} (m : List (String × α)) (k : String) :
    (lookupA m k).isSome ↔ k ∈ m.map Prod.fst := by
  induction m with
  | nil => simp [lookupA]
  | cons p rest ih =>
    by_cases hp : p.1 = k
    · simp [lookupA, hp]
    · simp [lookupA, hp, ih, Ne.symm hp]

theorem insertA_keys_of_not_mem {α : Type} {m : List (String × α)} {key : String}
    (v : α) (h : key ∉ m.map Prod.fst) :
    (insertA m key v).map Prod.fst = m.map Prod.fst ++ [key] := by
  induction m with
  | nil => simp [insertA]
  | cons p rest ih =>
    simp only [List.map_cons, List.mem_cons] at h
    push_neg at h
    simp only [insertA, if_neg (Ne.symm h.1), List.map_cons, ih h.2, List.cons_append]

/-! ### Condition-map lemmas -/

theorem lookupA_stepConditions_zero {cs : List (String × Int)} {c : String}
    (h : lookupA cs c = some 0) : lookupA (stepConditions cs) c = some 0 := by
  induction cs with
  | nil => simp [lookupA] at h
  | cons p rest ih =>
    obtain ⟨a, d⟩ := p
    by_cases ha : a = c
    · subst ha
      simp only [lookupA, if_pos rfl, reduceIte, Option.some.injEq] at h
      subst h
      simp [stepConditions, lookupA]
    · simp only [lookupA, if_neg ha] at h
      by_cases hd : d > 0
      · by_cases hz : d - 1 = 0
        · simpa [stepConditions, hd, hz] using ih h
        · simpa [stepConditions, hd, hz, lookupA, ha] using ih h
      · simpa [stepConditions, hd, lookupA, ha] using ih h

/-! ### Lemmas about the pairs collected by `handleStartCombat` -/

theorem of_mem_initPairs {ents : List (String × Entity)} {iter : List String}
    {p : String × Int} (h : p ∈ initPairs ents iter) :
    p.1 ∈ iter ∧ ∃ e, lookupA ents p.1 = some e ∧ p.2 = e.initiativeRoll := by
  simp only [initPairs, List.mem_filterMap] at h
  obtain ⟨id, hid, hmap⟩ := h
  rcases hlook : lookupA ents id with _ | e
  · rw [hlook] at hmap; simp at hmap
  · rw [hlook] at hmap
    simp only [Option.map_some', Option.some.injEq] at hmap
    subst hmap
    exact ⟨hid, e, hlook, rfl⟩

theorem initPairs_length {ents : List (String × Entity)} {iter : List String}
    (h : ∀ id ∈ iter, (lookupA ents id).isSome) :
    (initPairs ents iter).length = iter.length := by
  induction iter with
  | nil => rfl
  | cons id rest ih =>
    have h1 : (lookupA ents id).isSome := h id (List.mem_cons_self _ _)
    rcases hlook : lookupA ents id with _ | e
    · rw [hlook] at h1; simp at h1
    · simp only [initPairs, List.filterMap_cons, hlook, Option.map_some']
      simp only [List.length_cons]
      exact congrArg (· + 1) (ih fun i hi => h i (List.mem_cons_of_mem _ hi))

theorem pairwise_fst_initPairs {ents : List (String × Entity)} {iter : List String}
    (h : iter.Nodup) : (initPairs ents iter).Pairwise fun p q => p.1 ≠ q.1 := by
  induction iter with
  | nil => exact List.Pairwise.nil
  | cons id rest ih =>
    rw [List.nodup_cons] at h
    rcases hlook : lookupA ents id with _ | e
    · simpa [initPairs, List.filterMap_cons, hlook] using ih h.2
    · simp only [initPairs, List.filterMap_cons, hlook, Option.map_some']
      refine List.Pairwise.cons ?_ (ih h.2)
      intro q hq
      have hmem := (of_mem_initPairs (p := q) (by simpa [initPairs] using hq)).1
      intro hcontra
      have : id = q.1 := hcontra
      exact h.1 (this ▸ hmem)

/-! ### Lemmas about the roster built by `handleStartCombat` -/

theorem foldl_insertA_keys :
    ∀ (input : List EntityInit) (acc : List (String × Entity)),
      (input.map EntityInit.id).Nodup →
      (∀ e ∈ input, e.id ∉ acc.map Prod.fst) →
      (input.foldl (fun m e => insertA m e.id (mkEntity e)) acc).map Prod.fst =
        acc.map Prod.fst ++ input.map EntityInit.id := by
  intro input
  induction input with
  | nil => intro acc _ _; simp
  | cons e rest ih =>
    intro acc hnodup hdisj
    rw [List.map_cons, List.nodup_cons] at hnodup
    have hkeys : (insertA acc e.id (mkEntity e)).map Prod.fst =
        acc.map Prod.fst ++ [e.id] :=
      insertA_keys_of_not_mem _ (hdisj e (List.mem_cons_self _ _))
    have hdisj' : ∀ f ∈ rest, f.id ∉ (insertA acc e.id (mkEntity e)).map Prod.fst := by
      intro f hf
      rw [hkeys]
      intro hmem
      rcases List.mem_append.mp hmem with hmem | hmem
      · exact hdisj f (List.mem_cons_of_mem _ hf) hmem
      · rcases List.mem_singleton.mp hmem with h
        exact hnodup.1 (h ▸ List.mem_map_of_mem EntityInit.id hf)
    calc ((e :: rest).foldl (fun m f => insertA m f.id (mkEntity f)) acc).map Prod.fst
        = (rest.foldl (fun m f => insertA m f.id (mkEntity f))
            (insertA acc e.id (mkEntity e))).map Prod.fst := rfl
      _ = (insertA acc e.id (mkEntity e)).map Prod.fst ++ rest.map EntityInit.id :=
          ih _ hnodup.2 hdisj'
      _ = acc.map Prod.fst ++ (e :: rest).map EntityInit.id := by
          rw [hkeys, List.map_cons, List.append_assoc]; rfl

theorem buildEntities_keys {input : List EntityInit}
    (h : (input.map EntityInit.id).Nodup) :
    (buildEntities input).map Prod.fst = input.map EntityInit.id := by
  simpa [buildEntities] using foldl_insertA_keys input [] h (by simp)

/-! ### HP well-formedness lemmas -/

theorem mkEntity_hp (e : EntityInit) :
    (mkEntity e).currentHP = e.hp ∧ (mkEntity e).maxHP = e.hp := by
  unfold mkEntity loadMonsterStats
  dsimp only
  split
  · split <;> exact ⟨rfl, rfl⟩
  · exact ⟨rfl, rfl⟩

theorem foldl_insertA_wf :
    ∀ (input : List EntityInit) (acc : List (String × Entity)),
      (∀ p ∈ acc, 0 ≤ p.2.currentHP ∧ p.2.currentHP ≤ p.2.maxHP) →
      (∀ e ∈ input, 0 ≤ e.hp) →
      ∀ p ∈ input.foldl (fun m e => insertA m e.id (mkEntity e)) acc,
        0 ≤ p.2.currentHP ∧ p.2.currentHP ≤ p.2.maxHP := by
  intro input
  induction input with
  | nil => intro acc hacc _; exact hacc
  | cons e rest ih =>
    intro acc hacc hhp
    refine ih _ ?_ (fun f hf => hhp f (List.mem_cons_of_mem _ hf))
    refine forall_mem_insertA ?_ hacc
    have h1 := mkEntity_hp e
    have h2 := hhp e (List.mem_cons_self _ _)
    exact ⟨by rw [h1.1]; exact h2, by rw [h1.1, h1.2]⟩

theorem wf_buildEntities {input : List EntityInit} (h : ∀ e ∈ input, 0 ≤ e.hp) :
    ∀ p ∈ buildEntities input, 0 ≤ p.2.currentHP ∧ p.2.currentHP ≤ p.2.maxHP :=
  foldl_insertA_wf input [] (by simp) h

theorem clampLow_bounds {cur maxv f : Int} (h0 : 0 ≤ cur) (h1 : cur ≤ maxv) (hf : 0 ≤ f) :
    0 ≤ (if cur - f < 0 then 0 else cur - f) ∧
      (if cur - f < 0 then (0:Int) else cur - f) ≤ maxv := by
  constructor <;> split <;> omega

theorem clampHigh_bounds {cur maxv a : Int} (h0 : 0 ≤ cur) (h1 : cur ≤ maxv) (ha : 0 ≤ a) :
    0 ≤ (if cur + a > maxv then maxv else cur + a) ∧
      (if cur + a > maxv then maxv else cur + a) ≤ maxv := by
  constructor <;> split <;> omega

theorem entity_lr_update_hp (entity : Entity) (b : Bool) :
    (if b then { entity with legendaryResistances := entity.legendaryResistances - 1 }
      else entity).currentHP = entity.currentHP ∧
    (if b then { entity with legendaryResistances := entity.legendaryResistances - 1 }
      else entity).maxHP = entity.maxHP := by
  cases b <;> exact ⟨rfl, rfl⟩

theorem WF_insert {s : CombatState} {id : String} {e' : Entity}
    (hwf : WF s) (h0 : 0 ≤ e'.currentHP) (h1 : e'.currentHP ≤ e'.maxHP) :
    WF { s with entities := insertA s.entities id e' } :=
  forall_mem_insertA ⟨h0, h1⟩ hwf

/-! ### Lemmas about the state produced by `handleStartCombat` -/

theorem startCombat_idsPresent (input : List EntityInit) (iter : List String) :
    IdsPresent (handleStartCombat input iter).1 := by
  intro id hid
  simp only [handleStartCombat] at hid ⊢
  obtain ⟨p, hp, rfl⟩ := List.mem_map.mp hid
  have hp' : p ∈ initPairs (buildEntities input) iter :=
    (List.mem_insertionSort initGe).mp hp
  obtain ⟨-, e, hlook, -⟩ := of_mem_initPairs hp'
  simp [hlook]

theorem startCombat_turnOrder_length {input : List EntityInit} {iter : List String}
    (hnodup : (input.map EntityInit.id).Nodup)
    (hiter : iter.Perm ((buildEntities input).map Prod.fst)) :
    (handleStartCombat input iter).1.turnOrder.length = input.length := by
  have hall : ∀ id ∈ iter, (lookupA (buildEntities input) id).isSome := by
    intro id hid
    rw [lookupA_isSome_iff]
    exact hiter.subset hid
  simp only [handleStartCombat]
  rw [List.length_map, List.length_insertionSort, initPairs_length hall,
    hiter.length_eq, buildEntities_keys hnodup, List.length_map]

/-! ### Sorting lemmas -/

/-- Two lists sorted under the initiative comparator that are permutations of
one another, with pairwise-distinct initiative values, are equal (the
comparator is antisymmetric on such values). -/
theorem sorted_perm_nodup_eq :
    ∀ (l₁ l₂ : List (String × Int)), l₁.Perm l₂ →
      l₁.Pairwise initGe → l₂.Pairwise initGe →
      (l₂.map Prod.snd).Nodup → l₁ = l₂ := by
  intro l₁
  induction l₁ with
  | nil =>
    intro l₂ hperm _ _ _
    exact (List.Perm.eq_nil hperm.symm).symm
  | cons a t₁ ih =>
    intro l₂ hperm hs₁ hs₂ hnd
    cases l₂ with
    | nil => exact absurd (List.Perm.eq_nil hperm) (by simp)
    | cons b t₂ =>
      have hab : a = b := by
        rcases List.mem_cons.mp (hperm.mem_iff.mp (List.mem_cons_self a t₁)) with h | ha2
        · exact h
        · rcases List.mem_cons.mp (hperm.mem_iff.mpr (List.mem_cons_self b t₂)) with h | hb1
          · exact h.symm
          · have h1 : initGe a b := (List.pairwise_cons.mp hs₁).1 b hb1
            have h2 : initGe b a := (List.pairwise_cons.mp hs₂).1 a ha2
            have heq : a.2 = b.2 := by
              simp only [initGe] at h1 h2
              omega
            have hmem : b.2 ∈ t₂.map Prod.snd :=
              heq ▸ List.mem_map_of_mem Prod.snd ha2
            rw [List.map_cons, List.nodup_cons] at hnd
            exact absurd hmem hnd.1
      subst hab
      have htl : t₁ = t₂ := by
        refine ih t₂ hperm.cons_inv (List.pairwise_cons.mp hs₁).2
          (List.pairwise_cons.mp hs₂).2 ?_
        rw [List.map_cons, List.nodup_cons] at hnd
        exact hnd.2
      rw [htl]

/-! ### Lemmas about `handleNextTurn` -/

theorem nextTurnState_of_getElem {s : CombatState} {id : String} {e : Entity}
    (hid : s.turnOrder[if s.currentTurn + 1 ≥ s.turnOrder.length then 0
        else s.currentTurn + 1]? = some id)
    (he : lookupA s.entities id = some e) :
    nextTurnState s = some
      { entities := insertA s.entities id (startOfTurn e)
        turnOrder := s.turnOrder
        currentTurn := if s.currentTurn + 1 ≥ s.turnOrder.length then 0
          else s.currentTurn + 1
        roundNumber := if s.currentTurn + 1 ≥ s.turnOrder.length then s.roundNumber + 1
          else s.roundNumber } := by
  simp only [nextTurnState, handleNextTurn, hid, he]

theorem nextTurnState_spec {s : CombatState} (h0 : s.turnOrder ≠ [])
    (hp : IdsPresent s) :
    ∃ s', nextTurnState s = some s' ∧ s'.turnOrder = s.turnOrder ∧ IdsPresent s' ∧
      ((s.currentTurn + 1 < s.turnOrder.length ∧ s'.currentTurn = s.currentTurn + 1 ∧
          s'.roundNumber = s.roundNumber) ∨
        (s.turnOrder.length ≤ s.currentTurn + 1 ∧ s'.currentTurn = 0 ∧
          s'.roundNumber = s.roundNumber + 1)) := by
  have hlen : 0 < s.turnOrder.length := List.length_pos.mpr h0
  have hct : (if s.currentTurn + 1 ≥ s.turnOrder.length then 0
      else s.currentTurn + 1) < s.turnOrder.length := by
    split
    · exact hlen
    · omega
  have hid : s.turnOrder[if s.currentTurn + 1 ≥ s.turnOrder.length then 0
      else s.currentTurn + 1]? = some (s.turnOrder.get ⟨_, hct⟩) := by
    rw [List.getElem?_eq_getElem hct]
    rfl
  have hmem : s.turnOrder.get ⟨_, hct⟩ ∈ s.turnOrder := List.get_mem _ _ hct
  obtain ⟨e, he⟩ := Option.isSome_iff_exists.mp (hp _ hmem)
  refine ⟨_, nextTurnState_of_getElem hid he, rfl, ?_, ?_⟩
  · intro id' hid'
    exact isSome_lookupA_insertA _ _ _ _ (hp id' hid')
  · by_cases hw : s.currentTurn + 1 ≥ s.turnOrder.length
    · right
      exact ⟨hw, by simp [hw], by simp [hw]⟩
    · left
      exact ⟨by omega, by simp [hw], by simp [hw]⟩

theorem nextTurnState_shape {s s' : CombatState} (h : nextTurnState s = some s') :
    s'.turnOrder = s.turnOrder ∧
      ((s.currentTurn + 1 < s.turnOrder.length ∧ s'.currentTurn = s.currentTurn + 1 ∧
          s'.roundNumber = s.roundNumber) ∨
        (s.turnOrder.length ≤ s.currentTurn + 1 ∧ s'.currentTurn = 0 ∧
          s'.roundNumber = s.roundNumber + 1)) := by
  simp only [nextTurnState, handleNextTurn] at h
  split at h
  · rename_i s₁ out heq
    simp only [Option.some.injEq] at h
    subst h
    split at heq
    · simp at heq
    · split at heq
      · simp at heq
      · injection heq with h1 h2
        subst h1
        by_cases hw : s.currentTurn + 1 ≥ s.turnOrder.length
        · exact ⟨rfl, Or.inr ⟨hw, by simp [hw], by simp [hw]⟩⟩
        · exact ⟨rfl, Or.inl ⟨by omega, by simp [hw], by simp [hw]⟩⟩
  · simp at h

theorem iterateNextTurn_add (m n : Nat) (s : CombatState) :
    iterateNextTurn (m + n) s = (iterateNextTurn m s).bind (iterateNextTurn n) := by
  induction m generalizing s with
  | zero => simp [iterateNextTurn]
  | succ k ih =>
    rw [show k + 1 + n = (k + n) + 1 from by omega]
    simp only [iterateNextTurn]
    cases hstep : nextTurnState s with
    | none => rfl
    | some s₁ => exact ih s₁

theorem iterate_no_wrap (j : Nat) :
    ∀ s : CombatState, IdsPresent s → s.currentTurn + j + 1 ≤ s.turnOrder.length →
      ∃ s', iterateNextTurn j s = some s' ∧ s'.turnOrder = s.turnOrder ∧
        IdsPresent s' ∧ s'.currentTurn = s.currentTurn + j ∧
        s'.roundNumber = s.roundNumber := by
  induction j with
  | zero =>
    intro s hp _
    exact ⟨s, rfl, rfl, hp, rfl, rfl⟩
  | succ k ih =>
    intro s hp hlen
    have h0 : s.turnOrder ≠ [] := by
      intro hnil
      rw [hnil] at hlen
      simp at hlen
    obtain ⟨s₁, hstep, horder, hp₁, hdisj⟩ := nextTurnState_spec h0 hp
    rcases hdisj with ⟨-, hct, hrn⟩ | ⟨hge, -, -⟩
    · obtain ⟨s', hiter, horder', hp', hct', hrn'⟩ := ih s₁ hp₁ (by rw [horder, hct]; omega)
      refine ⟨s', ?_, by rw [horder', horder], hp', by rw [hct', hct]; omega, by rw [hrn', hrn]⟩
      simp only [iterateNextTurn, hstep, Option.bind_some]
      exact hiter
    · omega

theorem iterate_lap {s : CombatState} (hp : IdsPresent s)
    (h1 : s.currentTurn < s.turnOrder.length) :
    ∃ s', iterateNextTurn (s.turnOrder.length - s.currentTurn) s = some s' ∧
      s'.turnOrder = s.turnOrder ∧ IdsPresent s' ∧ s'.currentTurn = 0 ∧
      s'.roundNumber = s.roundNumber + 1 := by
  obtain ⟨s₁, hiter, horder, hp₁, hct, hrn⟩ :=
    iterate_no_wrap (s.turnOrder.length - s.currentTurn - 1) s hp (by omega)
  have h0 : s₁.turnOrder ≠ [] := by
    rw [horder]
    intro hnil
    rw [hnil] at h1
    simp at h1
  obtain ⟨s₂, hstep, horder₂, hp₂, hdisj⟩ := nextTurnState_spec h0 hp₁
  rcases hdisj with ⟨hlt, -, -⟩ | ⟨-, hct₂, hrn₂⟩
  · rw [horder, hct] at hlt
    omega
  · refine ⟨s₂, ?_, by rw [horder₂, horder], hp₂, hct₂, by rw [hrn₂, hrn]⟩
    rw [show s.turnOrder.length - s.currentTurn
        = (s.turnOrder.length - s.currentTurn - 1) + 1 from by omega,
      iterateNextTurn_add, hiter]
    simp only [Option.bind_some, iterateNextTurn]
    exact hstep

/-! ### Persistence of a zero-duration condition -/

theorem hasZero_nextTurnState {s s' : CombatState} {id c : String}
    (hz : ∃ e, lookupA s.entities id = some e ∧ lookupA e.conditions c = some 0)
    (h : nextTurnState s = some s') :
    ∃ e, lookupA s'.entities id = some e ∧ lookupA e.conditions c = some 0 := by
  obtain ⟨e, he, hc⟩ := hz
  simp only [nextTurnState, handleNextTurn] at h
  split at h
  · rename_i s₁ out heq
    simp only [Option.some.injEq] at h
    subst h
    split at heq
    · simp at heq
    · split at heq
      · simp at heq
      · rename_i cid hget hsc current hlook
        injection heq with h1 h2
        subst h1
        by_cases hcur : cid = id
        · subst hcur
          rw [he] at hlook
          injection hlook with hlook
          subst hlook
          refine ⟨startOfTurn e, by simp [lookupA_insertA_self], ?_⟩
          simp only [startOfTurn]
          split
          · exact lookupA_stepConditions_zero hc
          · exact lookupA_stepConditions_zero hc
        · exact ⟨e, by rw [lookupA_insertA_ne _ _ _ _ hcur]; exact he, hc⟩
  · simp at h

theorem hasZero_iterate {id c : String} (n : Nat) :
    ∀ {s s' : CombatState},
      (∃ e, lookupA s.entities id = some e ∧ lookupA e.conditions c = some 0) →
      iterateNextTurn n s = some s' →
      ∃ e, lookupA s'.entities id = some e ∧ lookupA e.conditions c = some 0 := by
  induction n with
  | zero =>
    intro s s' hz h
    cases h
    exact hz
  | succ k ih =>
    intro s s' hz h
    simp only [iterateNextTurn] at h
    rcases hstep : nextTurnState s with _ | s₁
    · rw [hstep] at h; simp at h
    · rw [hstep] at h
      exact ih (hasZero_nextTurnState hz hstep) h

/-! ### Concrete fixtures (from the spec's own test scenarios) -/

/-- Non-monster combatant B: initiative 10, HP 30, AC 14. -/
def bInit : EntityInit :=
  { id := "B", name := "Borin", initiative := 10, hp := 30, ac := 14,
    isMonster := false, monsterName := "" }

/-- Monster combatant A: initiative 15, HP 546, AC 22, Ancient Red Dragon. -/
def aInit : EntityInit :=
  { id := "A", name := "Dragon", initiative := 15, hp := 546, ac := 22,
    isMonster := true, monsterName := "Ancient Red Dragon" }

/-- The dragon entity as built by `start_combat`. -/
def dragonE : Entity := mkEntity aInit

/-- State after `start_combat` with B alone. -/
def stB : CombatState := (handleStartCombat [bInit] ["B"]).1

/-- `stB` after `track_resource` set a "resistances" resource on B. -/
def stR : CombatState :=
  (handleTrackResource stB
    { entityID := "B", resourceName := "resistances", currentValue := 1 }).state

/-- State after `start_combat` with the dragon and B. -/
def stAB : CombatState := (handleStartCombat [aInit, bInit] ["A", "B"]).1

/-- Two combatants with the same initiative value 5. -/
def tieInput : List EntityInit :=
  [{ id := "a", name := "A", initiative := 5, hp := 10, ac := 10,
     isMonster := false, monsterName := "" },
   { id := "b", name := "B", initiative := 5, hp := 8, ac := 12,
     isMonster := false, monsterName := "" }]

/-! ### Claim C1 -/

/-- Claim C1 counterexample: the claimed bounds 0 ≤ CurrentHP ≤ MaxHP do not
survive a negative damage amount (HP 30 becomes 35 > MaxHP 30) or a negative
healing amount (HP 30 becomes −10 < 0), although they held before the call. -/
theorem C1_counterexample :
    WF stB ∧
    ¬ WF (handleApplyDamage stB { targetID := "B", damage := -5 }).state ∧
    ¬ WF (handleApplyHealing stB { targetID := "B", amount := -40 }).state := by
  decide

/-- Claim C1 (amended): for rosters whose initial HP values are nonnegative,
`0 ≤ CurrentHP ≤ MaxHP` holds after `start_combat` and is preserved by every
operation, provided `apply_damage` is called with a nonnegative damage amount
and `apply_healing` with a nonnegative healing amount (the unchecked negative
amounts of the counterexample are the only way out of the bounds). -/
theorem C1_hp_bounds :
    (∀ (input : List EntityInit) (iter : List String),
        (∀ e ∈ input, 0 ≤ e.hp) → WF (handleStartCombat input iter).1) ∧
    (∀ (s : CombatState) (i : ApplyDamageInput),
        WF s → 0 ≤ i.damage → WF (handleApplyDamage s i).state) ∧
    (∀ (s : CombatState) (i : ApplyHealingInput),
        WF s → 0 ≤ i.amount → WF (handleApplyHealing s i).state) ∧
    (∀ s : CombatState, WF s → WF (handleNextTurn s).state) ∧
    (∀ (s : CombatState) (i : AddConditionInput),
        WF s → WF (handleAddCondition s i).state) ∧
    (∀ (s : CombatState) (i : SavingThrowInput) (roll : Int),
        WF s → WF (handleSavingThrow s i roll).state) ∧
    (∀ (s : CombatState) (i : LegendaryActionInput),
        WF s → WF (handleLegendaryAction s i).state) ∧
    (∀ (s : CombatState) (i : TrackResourceInput),
        WF s → WF (handleTrackResource s i).state) := by
  refine ⟨?_, ?_, ?_, ?_, ?_, ?_, ?_, ?_⟩
  · intro input iter h
    exact wf_buildEntities h
  · intro s i hwf hd
    rcases hlook : lookupA s.entities i.targetID with _ | target
    · simpa only [handleApplyDamage, hlook, Outcome.state] using hwf
    · simp only [handleApplyDamage, hlook, Outcome.state]
      obtain ⟨hb1, hb2⟩ := hwf _ (mem_of_lookupA hlook)
      have hb1' : 0 ≤ target.currentHP := hb1
      have hb2' : target.currentHP ≤ target.maxHP := hb2
      have hf : 0 ≤ (if (lookupA target.resources "resistances").isSome
          then Int.tdiv i.damage 2 else i.damage) := by
        split
        · exact Int.tdiv_nonneg hd (by omega)
        · exact hd
      refine WF_insert hwf ?_ ?_
      · exact (clampLow_bounds hb1' hb2' hf).1
      · exact (clampLow_bounds hb1' hb2' hf).2
  · intro s i hwf ha
    rcases hlook : lookupA s.entities i.targetID with _ | target
    · simpa only [handleApplyHealing, hlook, Outcome.state] using hwf
    · simp only [handleApplyHealing, hlook, Outcome.state]
      obtain ⟨hb1, hb2⟩ := hwf _ (mem_of_lookupA hlook)
      have hb1' : 0 ≤ target.currentHP := hb1
      have hb2' : target.currentHP ≤ target.maxHP := hb2
      refine WF_insert hwf ?_ ?_
      · exact (clampHigh_bounds hb1' hb2' ha).1
      · exact (clampHigh_bounds hb1' hb2' ha).2
  · intro s hwf
    simp only [handleNextTurn]
    split
    · exact hwf
    · split
      · exact hwf
      · rename_i cid hget hsc current hlook
        simp only [Outcome.state]
        obtain ⟨hb1, hb2⟩ := hwf _ (mem_of_lookupA hlook)
        refine WF_insert hwf ?_ ?_ <;> simp only [startOfTurn] <;> split <;>
          first | exact hb1 | exact hb2
  · intro s i hwf
    rcases hlook : lookupA s.entities i.targetID with _ | target
    · simpa only [handleAddCondition, hlook, Outcome.state] using hwf
    · simp only [handleAddCondition, hlook, Outcome.state]
      obtain ⟨hb1, hb2⟩ := hwf _ (mem_of_lookupA hlook)
      exact WF_insert hwf hb1 hb2
  · intro s i roll hwf
    rcases hlook : lookupA s.entities i.entityID with _ | entity
    · simpa only [handleSavingThrow, hlook, Outcome.state] using hwf
    · simp only [handleSavingThrow, hlook, Outcome.state]
      obtain ⟨hb1, hb2⟩ := hwf _ (mem_of_lookupA hlook)
      have hb1' : 0 ≤ entity.currentHP := hb1
      have hb2' : entity.currentHP ≤ entity.maxHP := hb2
      refine WF_insert hwf ?_ ?_
      · rw [(entity_lr_update_hp entity _).1]
        exact hb1'
      · rw [(entity_lr_update_hp entity _).1, (entity_lr_update_hp entity _).2]
        exact hb2'
  · intro s i hwf
    rcases hlook : lookupA s.entities i.monsterID with _ | monster
    · simpa only [handleLegendaryAction, hlook, Outcome.state] using hwf
    · simp only [handleLegendaryAction, hlook]
      obtain ⟨hb1, hb2⟩ := hwf _ (mem_of_lookupA hlook)
      split
      · exact hwf
      · exact WF_insert hwf hb1 hb2
  · intro s i hwf
    rcases hlook : lookupA s.entities i.entityID with _ | entity
    · simpa only [handleTrackResource, hlook, Outcome.state] using hwf
    · simp only [handleTrackResource, hlook, Outcome.state]
      obtain ⟨hb1, hb2⟩ := hwf _ (mem_of_lookupA hlook)
      exact WF_insert hwf hb1 hb2

/-- Claim C1 witness: the amended bounds at a concrete roster and a concrete
nonnegative damage application. -/
theorem C1_witness :
    WF stB ∧ WF (handleApplyDamage stB { targetID := "B", damage := 20 }).state :=
  ⟨C1_hp_bounds.1 [bInit] ["B"] (by decide),
   C1_hp_bounds.2.1 stB { targetID := "B", damage := 20 }
     (C1_hp_bounds.1 [bInit] ["B"] (by decide)) (by decide)⟩

/-! ### Claim C2 -/

/-- Claim C2 counterexample: with a "resistances" key present and damage −5,
the code's final damage is Go truncated division −5/2 = −2, not the claimed
floor(−5/2) = −3. -/
theorem C2_counterexample :
    ((lookupA stR.entities "B").map
        (fun e => (lookupA e.resources "resistances").isSome)) = some true ∧
    (handleApplyDamage stR { targetID := "B", damage := -5 }).output =
      some { finalDamage := -2, remainingHP := 32, isUnconscious := false } ∧
    Int.fdiv (-5) 2 = -3 ∧ ((-2 : Int) ≠ -3) := by
  decide

/-- Claim C2 (amended): for an existing target, `apply_damage` computes the
final damage as Go truncated division `d.tdiv 2` when the "resistances" key
exists (this equals floor(d/2) for d ≥ 0 but rounds toward zero for negative
d) and `d` otherwise; the new CurrentHP is max(0, old − final damage); and
IsUnconscious is true iff the new CurrentHP is exactly 0. -/
theorem C2_damage_characterization (s : CombatState) (i : ApplyDamageInput)
    (target : Entity) (h : lookupA s.entities i.targetID = some target) :
    handleApplyDamage s i =
      .ok { s with entities := (insertA s.entities i.targetID
              { target with currentHP := (max 0 (target.currentHP -
                  (if (lookupA target.resources "resistances").isSome
                    then Int.tdiv i.damage 2 else i.damage))) }) }
        { finalDamage := if (lookupA target.resources "resistances").isSome
            then Int.tdiv i.damage 2 else i.damage
          remainingHP := max 0 (target.currentHP -
            (if (lookupA target.resources "resistances").isSome
              then Int.tdiv i.damage 2 else i.damage))
          isUnconscious := decide (max 0 (target.currentHP -
            (if (lookupA target.resources "resistances").isSome
              then Int.tdiv i.damage 2 else i.damage)) = 0) } := by
  have hmax : ∀ x : Int, (if x < 0 then 0 else x) = max 0 x := by
    intro x
    rw [max_def]
    split <;> split <;> omega
  simp only [handleApplyDamage, h, hmax]

/-- Claim C2 witness: the amended characterization evaluated on the
resistant target B at damage 7 (truncated to 3, HP 30 → 27). -/
theorem C2_witness :
    handleApplyDamage stR { targetID := "B", damage := 7 } =
      .ok { stR with entities := (insertA stR.entities "B"
              { mkEntity bInit with
                  resources := ([("resistances", 1)])
                  currentHP := (max 0 ((mkEntity bInit).currentHP -
                    (if (lookupA [(("resistances" : String), (1 : Int))]
                        "resistances").isSome
                      then Int.tdiv 7 2 else 7))) }) }
        { finalDamage := if (lookupA [(("resistances" : String), (1 : Int))]
              "resistances").isSome then Int.tdiv 7 2 else 7
          remainingHP := max 0 ((mkEntity bInit).currentHP -
            (if (lookupA [(("resistances" : String), (1 : Int))]
                "resistances").isSome then Int.tdiv 7 2 else 7))
          isUnconscious := decide (max 0 ((mkEntity bInit).currentHP -
            (if (lookupA [(("resistances" : String), (1 : Int))]
                "resistances").isSome then Int.tdiv 7 2 else 7)) = 0) } :=
  C2_damage_characterization stR { targetID := "B", damage := 7 }
    { mkEntity bInit with resources := [("resistances", 1)] } (by decide)

/-! ### Claim C3 -/

/-- Claim C3: the spec requires `next_turn` on an empty turn order to return
an InvalidState request failure.  The code instead reads index 0 of the
empty turn-order slice — a runtime panic, after the turn counter was already
advanced — both from the pre-encounter initial state and after a
`start_combat` with an empty entity list.  This theorem exhibits the panic
outcome at both failing inputs. -/
theorem C3_empty_turnOrder_panics :
    handleNextTurn initialState =
      .panic' { entities := [], turnOrder := [], currentTurn := 0, roundNumber := 1 } ∧
    handleNextTurn (handleStartCombat [] []).1 =
      .panic' { entities := [], turnOrder := [], currentTurn := 0, roundNumber := 2 } := by
  decide

/-! ### Claim C4 -/

/-- Claim C4: from a fresh `start_combat` with N ≥ 1 distinct entities (turn
index 0, round 1), exactly N `next_turn` calls end with round number 2 and
turn index 0; and in general every successful `next_turn` either advances
the index by one keeping the round, or wraps the index from the end to 0
incrementing the round by one (so the round is monotonically non-decreasing
and increments exactly at the wrap). -/
theorem C4_full_lap (input : List EntityInit) (iter : List String) (N : Nat)
    (hN : 1 ≤ N) (hlen : input.length = N)
    (hnodup : (input.map EntityInit.id).Nodup)
    (hiter : iter.Perm ((buildEntities input).map Prod.fst)) :
    (∃ s', iterateNextTurn N (handleStartCombat input iter).1 = some s' ∧
        s'.roundNumber = 2 ∧ s'.currentTurn = 0) ∧
    (∀ s s' : CombatState, nextTurnState s = some s' →
      (s'.currentTurn = s.currentTurn + 1 ∧ s'.roundNumber = s.roundNumber ∧
          s.currentTurn + 1 < s.turnOrder.length) ∨
        (s'.currentTurn = 0 ∧ s'.roundNumber = s.roundNumber + 1 ∧
          s.turnOrder.length ≤ s.currentTurn + 1)) := by
  constructor
  · have hlen' : (handleStartCombat input iter).1.turnOrder.length = N := by
      rw [startCombat_turnOrder_length hnodup hiter, hlen]
    have hp := startCombat_idsPresent input iter
    have hct : (handleStartCombat input iter).1.currentTurn = 0 := rfl
    have hrn : (handleStartCombat input iter).1.roundNumber = 1 := rfl
    obtain ⟨s', hiter', horder, hp', hct', hrn'⟩ :=
      iterate_lap hp (by rw [hlen', hct]; omega)
    refine ⟨s', ?_, by rw [hrn', hrn], hct'⟩
    rw [← hiter']
    congr 1
    rw [hlen', hct]
    omega
  · intro s s' h
    rcases (nextTurnState_shape h).2 with ⟨h1, h2, h3⟩ | ⟨h1, h2, h3⟩
    · exact Or.inl ⟨h2, h3, h1⟩
    · exact Or.inr ⟨h2, h3, h1⟩

/-- Claim C4 witness: two entities, two `next_turn` calls, round 2 index 0. -/
theorem C4_witness :
    ∃ s', iterateNextTurn 2 (handleStartCombat [aInit, bInit] ["A", "B"]).1 = some s' ∧
      s'.roundNumber = 2 ∧ s'.currentTurn = 0 :=
  (C4_full_lap [aInit, bInit] ["A", "B"] 2 (by decide) (by decide) (by decide)
    (by decide)).1

/-! ### Claim C5 -/

/-- Claim C5 counterexample: with two entities tied at initiative 5 the turn
order has adjacent positions with equal (not strictly greater) initiative,
so strict descent fails; the iteration order used is a permutation of the
roster keys, i.e. a run the Go runtime can produce. -/
theorem C5_counterexample :
    ["a", "b"].Perm ((buildEntities tieInput).map Prod.fst) ∧
    (handleStartCombat tieInput ["a", "b"]).1.turnOrder = ["a", "b"] ∧
    ¬ (initOf (handleStartCombat tieInput ["a", "b"]).1 "a" >
        initOf (handleStartCombat tieInput ["a", "b"]).1 "b") := by
  decide

/-- Claim C5 (amended): the turn order computed by `start_combat` is
descending by initiative in the non-strict sense — each entity's initiative
is greater than or equal to that of the next position.  Strictness holds
only in the absence of ties. -/
theorem C5_sorted_descending (input : List EntityInit) (iter : List String) :
    List.Chain' (fun x y =>
        initOf (handleStartCombat input iter).1 y ≤
          initOf (handleStartCombat input iter).1 x)
      (handleStartCombat input iter).1.turnOrder := by
  have hsorted : ((initPairs (buildEntities input) iter).insertionSort initGe).Pairwise
      initGe := List.sorted_insertionSort initGe _
  have hmem : ∀ p ∈ (initPairs (buildEntities input) iter).insertionSort initGe,
      initOf (handleStartCombat input iter).1 p.1 = p.2 := by
    intro p hp
    obtain ⟨-, e, hlook, he⟩ :=
      of_mem_initPairs ((List.mem_insertionSort initGe).mp hp)
    simp only [initOf]
    rw [show (handleStartCombat input iter).1.entities = buildEntities input from rfl,
      hlook, he]
  have hpair : ((initPairs (buildEntities input) iter).insertionSort initGe).Pairwise
      (fun a b => initOf (handleStartCombat input iter).1 b.1 ≤
        initOf (handleStartCombat input iter).1 a.1) := by
    refine List.Pairwise.imp_of_mem ?_ hsorted
    intro a b ha hb hr
    rw [hmem a ha, hmem b hb]
    exact hr
  have hmap : (((initPairs (buildEntities input) iter).insertionSort initGe).map
      Prod.fst).Pairwise (fun x y =>
        initOf (handleStartCombat input iter).1 y ≤
          initOf (handleStartCombat input iter).1 x) :=
    List.pairwise_map.mpr hpair
  exact hmap.chain'

/-! ### Claim C6 -/

/-- Claim C6: in `make_saving_throw` on an existing entity with die result
`roll`, if the unmodified total fails against the DC and at least one
legendary resistance remains, success is forced true, the override flag is
set, and exactly one resistance is consumed; with zero resistances a failure
stands and nothing is consumed; an unmodified success consumes nothing. -/
theorem C6_saving_throw (s : CombatState) (i : SavingThrowInput) (roll : Int)
    (entity : Entity) (h : lookupA s.entities i.entityID = some entity) :
    (roll + (if entity.isMonster then (3:Int) else 0) < i.dc →
      1 ≤ entity.legendaryResistances →
      handleSavingThrow s i roll =
        .ok { s with entities := (insertA s.entities i.entityID
                { entity with legendaryResistances := entity.legendaryResistances - 1 }) }
          { roll := roll
            bonus := (if entity.isMonster then (3:Int) else 0)
            total := roll + (if entity.isMonster then (3:Int) else 0)
            success := true
            usedLegendaryResistance := true
            remainingLegendaryResists := entity.legendaryResistances - 1 }) ∧
    (roll + (if entity.isMonster then (3:Int) else 0) < i.dc →
      entity.legendaryResistances = 0 →
      handleSavingThrow s i roll =
        .ok { s with entities := (insertA s.entities i.entityID entity) }
          { roll := roll
            bonus := (if entity.isMonster then (3:Int) else 0)
            total := roll + (if entity.isMonster then (3:Int) else 0)
            success := false
            usedLegendaryResistance := false
            remainingLegendaryResists := 0 }) ∧
    (i.dc ≤ roll + (if entity.isMonster then (3:Int) else 0) →
      handleSavingThrow s i roll =
        .ok { s with entities := (insertA s.entities i.entityID entity) }
          { roll := roll
            bonus := (if entity.isMonster then (3:Int) else 0)
            total := roll + (if entity.isMonster then (3:Int) else 0)
            success := true
            usedLegendaryResistance := false
            remainingLegendaryResists := entity.legendaryResistances }) := by
  refine ⟨?_, ?_, ?_⟩
  · intro h1 h2
    have hd1 : decide (roll + (if entity.isMonster then (3:Int) else 0) ≥ i.dc) = false :=
      decide_eq_false (by omega)
    have hd2 : decide (entity.legendaryResistances > 0) = true :=
      decide_eq_true (by omega)
    simp [handleSavingThrow, h, hd1, hd2]
  · intro h1 h2
    have hd1 : decide (roll + (if entity.isMonster then (3:Int) else 0) ≥ i.dc) = false :=
      decide_eq_false (by omega)
    have hd2 : decide (entity.legendaryResistances > 0) = false :=
      decide_eq_false (by omega)
    simp [handleSavingThrow, h, hd1, hd2, h2]
  · intro h1
    have hd1 : decide (roll + (if entity.isMonster then (3:Int) else 0) ≥ i.dc) = true :=
      decide_eq_true (by omega)
    simp [handleSavingThrow, h, hd1]

/-- Claim C6 witness: the dragon (legendary resistances 3, monster bonus 3)
rolls 1 against DC 20: 4 < 20 fails, is overridden to success, and the
resistances drop to 2. -/
theorem C6_witness :
    handleSavingThrow stAB { entityID := "A", dc := 20 } 1 =
      .ok { stAB with entities := (insertA stAB.entities "A"
              { dragonE with legendaryResistances := dragonE.legendaryResistances - 1 }) }
        { roll := 1
          bonus := (if dragonE.isMonster then (3:Int) else 0)
          total := 1 + (if dragonE.isMonster then (3:Int) else 0)
          success := true
          usedLegendaryResistance := true
          remainingLegendaryResists := dragonE.legendaryResistances - 1 } :=
  (C6_saving_throw stAB { entityID := "A", dc := 20 } 1 dragonE (by decide)).1
    (by decide) (by decide)

/-! ### Claim C7 -/

/-- Claim C7: `use_legendary_action` on a missing id is a hard error; on an
existing monster with fewer remaining legendary actions than the cost it is
the soft outcome success=false with the unchanged remaining count and no
state mutation; otherwise the cost is deducted and success=true is returned
with the new remaining count. -/
theorem C7_legendary_action (s : CombatState) (i : LegendaryActionInput) :
    (lookupA s.entities i.monsterID = none →
      handleLegendaryAction s i = .fail s ("monster not found: " ++ i.monsterID)) ∧
    (∀ m, lookupA s.entities i.monsterID = some m →
      (m.legendaryActions < i.cost →
        handleLegendaryAction s i =
          .ok s { success := false, remainingActions := m.legendaryActions }) ∧
      (i.cost ≤ m.legendaryActions →
        handleLegendaryAction s i =
          .ok { s with entities := (insertA s.entities i.monsterID
                  { m with legendaryActions := m.legendaryActions - i.cost }) }
            { success := true, remainingActions := m.legendaryActions - i.cost })) := by
  constructor
  · intro h
    simp [handleLegendaryAction, h]
  · intro m h
    constructor
    · intro hlt
      simp [handleLegendaryAction, h, hlt]
    · intro hge
      have hnlt : ¬ (m.legendaryActions < i.cost) := not_lt.mpr hge
      simp [handleLegendaryAction, h, hnlt]

/-- Claim C7 witness: the dragon has 3 legendary actions; spending cost 5 is
the soft failure with remaining count 3 and the state unchanged, and
spending cost 2 succeeds leaving 1. -/
theorem C7_witness :
    handleLegendaryAction stAB { monsterID := "A", cost := 5 } =
      .ok stAB { success := false, remainingActions := dragonE.legendaryActions } ∧
    handleLegendaryAction stAB { monsterID := "A", cost := 2 } =
      .ok { stAB with entities := (insertA stAB.entities "A"
              { dragonE with legendaryActions := dragonE.legendaryActions - 2 }) }
        { success := true, remainingActions := dragonE.legendaryActions - 2 } :=
  ⟨((C7_legendary_action stAB { monsterID := "A", cost := 5 }).2 dragonE
      (by decide)).1 (by decide),
   ((C7_legendary_action stAB { monsterID := "A", cost := 2 }).2 dragonE
      (by decide)).2 (by decide)⟩

/-! ### Claim C8 -/

/-- Claim C8: every entity-referencing operation, when the id does not exist
in the current encounter, returns a hard request failure carrying the
encounter state completely unchanged — entities, turn order, turn index and
round number all equal to those before the call. -/
theorem C8_not_found (s : CombatState) (id : String)
    (h : lookupA s.entities id = none) :
    (∀ d : Int, handleApplyDamage s { targetID := id, damage := d } =
      .fail s ("target not found: " ++ id)) ∧
    (∀ a : Int, handleApplyHealing s { targetID := id, amount := a } =
      .fail s ("target not found: " ++ id)) ∧
    (∀ (c : String) (dur : Int),
      handleAddCondition s { targetID := id, condition := c, duration := dur } =
        .fail s ("target not found: " ++ id)) ∧
    (∀ (dc roll : Int), handleSavingThrow s { entityID := id, dc := dc } roll =
      .fail s ("entity not found: " ++ id)) ∧
    (∀ c : Int, handleLegendaryAction s { monsterID := id, cost := c } =
      .fail s ("monster not found: " ++ id)) ∧
    (∀ (rn : String) (v : Int),
      handleTrackResource s { entityID := id, resourceName := rn, currentValue := v } =
        .fail s ("entity not found: " ++ id)) := by
  refine ⟨fun d => ?_, fun a => ?_, fun c dur => ?_, fun dc roll => ?_,
    fun c => ?_, fun rn v => ?_⟩ <;>
    simp [handleApplyDamage, handleApplyHealing, handleAddCondition,
      handleSavingThrow, handleLegendaryAction, handleTrackResource, h]

/-- Claim C8 witness: every operation aimed at the absent id "X" fails on the
one-entity roster and hands back the state unchanged. -/
theorem C8_witness :
    handleApplyDamage stB { targetID := "X", damage := 3 } =
      .fail stB ("target not found: " ++ "X") ∧
    handleTrackResource stB { entityID := "X", resourceName := "ki", currentValue := 2 } =
      .fail stB ("entity not found: " ++ "X") :=
  ⟨(C8_not_found stB "X" (by decide)).1 3,
   (C8_not_found stB "X" (by decide)).2.2.2.2.2 "ki" 2⟩

/-! ### Claim C9 -/

/-- Claim C9 counterexample: with two entities tied at initiative 5, two map
iteration orders that are both permutations of the roster keys (both can be
produced by the Go runtime, which randomizes map iteration) yield different
turn orders for the same input entity list, so `start_combat` is not a
function of its inputs and the encounter state alone. -/
theorem C9_counterexample :
    ["a", "b"].Perm ((buildEntities tieInput).map Prod.fst) ∧
    ["b", "a"].Perm ((buildEntities tieInput).map Prod.fst) ∧
    (handleStartCombat tieInput ["a", "b"]).1.turnOrder ≠
      (handleStartCombat tieInput ["b", "a"]).1.turnOrder := by
  decide

/-- Claim C9 (amended): the six non-random operations other than
`start_combat` are deterministic functions of the state and inputs as
modelled; `start_combat` additionally depends on the unspecified Go map
iteration order, but its result is independent of that order — hence
deterministic — whenever the roster's initiative values are pairwise
distinct.  (With ties, the counterexample shows the dependence is real.) -/
theorem C9_start_combat_order_independent (input : List EntityInit)
    (iter1 iter2 : List String)
    (hnodup : (input.map EntityInit.id).Nodup)
    (h1 : iter1.Perm ((buildEntities input).map Prod.fst))
    (h2 : iter2.Perm ((buildEntities input).map Prod.fst))
    (hinit : ((buildEntities input).map (fun p => p.2.initiativeRoll)).Nodup) :
    handleStartCombat input iter1 = handleStartCombat input iter2 := by
  have hkeynodup : ((buildEntities input).map Prod.fst).Nodup := by
    rw [buildEntities_keys hnodup]
    exact hnodup
  have hpairsperm : (initPairs (buildEntities input) iter1).Perm
      (initPairs (buildEntities input) iter2) :=
    List.Perm.filterMap _ (h1.trans h2.symm)
  have hs1 : ((initPairs (buildEntities input) iter1).insertionSort initGe).Pairwise
      initGe := List.sorted_insertionSort initGe _
  have hs2 : ((initPairs (buildEntities input) iter2).insertionSort initGe).Pairwise
      initGe := List.sorted_insertionSort initGe _
  have hpermsorted :
      ((initPairs (buildEntities input) iter1).insertionSort initGe).Perm
        ((initPairs (buildEntities input) iter2).insertionSort initGe) :=
    (List.perm_insertionSort initGe _).trans
      (hpairsperm.trans (List.perm_insertionSort initGe _).symm)
  have hinitpw : (buildEntities input).Pairwise
      (fun p q => p.2.initiativeRoll ≠ q.2.initiativeRoll) :=
    List.pairwise_map.mp hinit
  have hiter2nodup : iter2.Nodup := h2.symm.nodup hkeynodup
  have hfst2 : (initPairs (buildEntities input) iter2).Pairwise
      (fun p q => p.1 ≠ q.1) := pairwise_fst_initPairs hiter2nodup
  have hsnd2 : (initPairs (buildEntities input) iter2).Pairwise
      (fun p q => p.2 ≠ q.2) := by
    refine List.Pairwise.imp_of_mem ?_ hfst2
    intro p q hp hq hne
    obtain ⟨-, e, hle, he⟩ := of_mem_initPairs hp
    obtain ⟨-, f, hlf, hf⟩ := of_mem_initPairs hq
    have hsym : Symmetric (fun p q : String × Entity =>
        p.2.initiativeRoll ≠ q.2.initiativeRoll) := fun x y hxy => hxy.symm
    have hneq : ((p.1, e) : String × Entity) ≠ (q.1, f) := by
      intro hcontra
      have h12 := congrArg Prod.fst hcontra
      exact hne h12
    have hne' := (hinitpw.forall hsym) (mem_of_lookupA hle) (mem_of_lookupA hlf) hneq
    rw [he, hf]
    exact hne'
  have hsndpairs : ((initPairs (buildEntities input) iter2).map Prod.snd).Nodup :=
    List.pairwise_map.mpr hsnd2
  have hsndnodup : (((initPairs (buildEntities input) iter2).insertionSort
      initGe).map Prod.snd).Nodup :=
    (((List.perm_insertionSort initGe
      (initPairs (buildEntities input) iter2)).map Prod.snd).symm).nodup hsndpairs
  have key := sorted_perm_nodup_eq _ _ hpermsorted hs1 hs2 hsndnodup
  simp only [handleStartCombat, key]

/-- Claim C9 witness: with distinct initiatives 15 and 10, the two opposite
iteration orders produce identical results. -/
theorem C9_witness :
    handleStartCombat [aInit, bInit] ["A", "B"] =
      handleStartCombat [aInit, bInit] ["B", "A"] :=
  C9_start_combat_order_independent [aInit, bInit] ["A", "B"] ["B", "A"]
    (by decide) (by decide) (by decide) (by decide)

/-! ### Claim C10 -/

/-- Claim C10: a condition added with duration exactly 0 is stored with
counter 0 and is never decremented or removed by any number of `next_turn`
calls (the decrement loop only touches strictly positive counters): it
persists with counter 0 and keeps appearing in the combat-status condition
name list, exactly like a permanent (−1) condition. -/
theorem C10_zero_duration (s : CombatState) (i : AddConditionInput)
    (s₁ : CombatState) (hdur : i.duration = 0)
    (h : handleAddCondition s i = .ok s₁ ()) :
    (∃ e, lookupA s₁.entities i.targetID = some e ∧
        lookupA e.conditions i.condition = some 0 ∧ i.condition ∈ condNames e) ∧
    (∀ (n : Nat) (s₂ : CombatState), iterateNextTurn n s₁ = some s₂ →
      ∃ e, lookupA s₂.entities i.targetID = some e ∧
        lookupA e.conditions i.condition = some 0 ∧ i.condition ∈ condNames e) := by
  have hz : ∃ e, lookupA s₁.entities i.targetID = some e ∧
      lookupA e.conditions i.condition = some 0 := by
    rcases hlook : lookupA s.entities i.targetID with _ | target
    · rw [handleAddCondition] at h
      rw [hlook] at h
      simp at h
    · rw [handleAddCondition] at h
      rw [hlook] at h
      simp only [Outcome.ok.injEq] at h
      obtain ⟨h1, -⟩ := h
      subst h1
      refine ⟨_, lookupA_insertA_self _ _ _, ?_⟩
      show lookupA (insertA target.conditions i.condition i.duration) i.condition = some 0
      rw [lookupA_insertA_self, hdur]
  have hname : ∀ (e : Entity), lookupA e.conditions i.condition = some 0 →
      i.condition ∈ condNames e := by
    intro e he
    have : (lookupA e.conditions i.condition).isSome := by rw [he]; rfl
    exact (lookupA_isSome_iff _ _).mp this
  obtain ⟨e₀, he₀, hc₀⟩ := hz
  refine ⟨⟨e₀, he₀, hc₀, hname e₀ hc₀⟩, ?_⟩
  intro n s₂ hit
  obtain ⟨e, he, hc⟩ := hasZero_iterate n ⟨e₀, he₀, hc₀⟩ hit
  exact ⟨e, he, hc, hname e hc⟩

/-- Claim C10 witness: a "stunned" condition with duration 0 on B survives
three `next_turn` calls with counter 0 and stays in the status list. -/
theorem C10_witness :
    (∃ e, lookupA ((handleAddCondition stB
        { targetID := "B", condition := "stunned", duration := 0 }).state).entities
          "B" = some e ∧
      lookupA e.conditions "stunned" = some 0 ∧ "stunned" ∈ condNames e) ∧
    (∀ (n : Nat) (s₂ : CombatState),
      iterateNextTurn n ((handleAddCondition stB
        { targetID := "B", condition := "stunned", duration := 0 }).state) = some s₂ →
      ∃ e, lookupA s₂.entities "B" = some e ∧
        lookupA e.conditions "stunned" = some 0 ∧ "stunned" ∈ condNames e) :=
  C10_zero_duration stB { targetID := "B", condition := "stunned", duration := 0 }
    ((handleAddCondition stB
      { targetID := "B", condition := "stunned", duration := 0 }).state)
    (by decide) (by decide)

end DMMcp
